import Mathlib

/-!
Shallow embedding of the TechFrame defect-tracking service.

Server handlers live in the Hono backend file (signup, projects, defects,
comments, analytics, users, role update); the client-side aggregation
(`getTimelineData`) lives in the analytics page component.

Modelling conventions:
* Timestamps are natural numbers counting minutes since the epoch, so one
  UTC calendar day spans 1440 consecutive values; `toISOString().split('T')[0]`
  on a non-negative timestamp identifies the UTC day, i.e. `t / 1440`.
* The key-value store (`kv.get` / `kv.set` / `kv.getByPrefix`) is an
  association list per entity kind; `kvSet` replaces the binding in place or
  appends a fresh one, matching point writes to a keyed store.
* `crypto.randomUUID()` results are passed in as explicit parameters;
  freshness of generated ids is a hypothesis where a claim needs it.
  History keys `history:<defectId>:<entryId>` always use a fresh entry id,
  so a history write is modelled as appending to the history list.
* Bearer-token resolution (`verifyAuth`) is collapsed into an
  `Option String` argument holding the caller's user id; `none` covers both
  a missing header and a token the authenticator rejects (both 401 paths).
* JSON payload fields are typed by their use in the handlers; a field that a
  handler may receive or omit is an `Option`. Enumerated values (status,
  priority, role) stay plain strings because the handlers store them without
  validation.
-/

namespace TechFrame

/-- A defect comment `{id, author, comment, timestamp}`. -/
structure Comment where
  id : String
  author : String
  comment : String
  timestamp : Nat
deriving DecidableEq, Repr

/-- A defect record as built by the POST /defects handler and mutated by
PUT /defects/:id and POST /defects/:id/comments. -/
structure Defect where
  id : String
  title : String
  description : String
  priority : String
  assignee : String
  projectId : String
  dueDate : Option Nat
  status : String
  createdBy : String
  createdAt : Nat
  updatedAt : Nat
  comments : List Comment
deriving DecidableEq, Repr

/-- A history record `{id, defectId, action, userId, timestamp, details}`. -/
structure HistoryEntry where
  id : String
  defectId : String
  action : String
  userId : String
  timestamp : Nat
  details : String
deriving DecidableEq, Repr

/-- A user profile stored under `user:<id>`. `updatedAt` is absent until the
role-update handler adds it. -/
structure User where
  id : String
  email : String
  name : String
  role : String
  createdAt : Nat
  updatedAt : Option Nat
deriving DecidableEq, Repr

/-- Outcome of one handler invocation: a JSON success value or an HTTP error
status with its message. -/
inductive HandlerResult (α : Type) where
  | ok (value : α)
  | err (status : Nat) (message : String)
deriving DecidableEq, Repr

/-- The slice of the key-value store the modelled handlers touch, one
association list per key prefix (`user:`, `defect:`, `history:`). -/
structure Store where
  users : List (String × User)
  defects : List (String × Defect)
  histories : List HistoryEntry
deriving DecidableEq, Repr

/-- Point write to a keyed association list: replace the existing binding in
place, or append a new one. -/
def kvSet {α : Type} (m : List (String × α)) (k : String) (v : α) :
    List (String × α) :=
  match m with
  | [] => [(k, v)]
  | (k', v') :: rest =>
      if k' = k then (k, v) :: rest else (k', v') :: kvSet rest k v

/-- Body of POST /defects: `{title, description, priority, assignee,
projectId, dueDate}` as destructured by the handler. -/
structure CreateDefectPayload where
  title : String
  description : String
  priority : String
  assignee : String
  projectId : String
  dueDate : Option Nat
deriving DecidableEq, Repr

/-- Body of PUT /defects/:id: an arbitrary partial defect document. A `some`
field is present in the JSON object (and hence listed by `Object.keys` and
applied by the spread), a `none` field is absent. -/
structure DefectUpdate where
  id : Option String := none
  title : Option String := none
  description : Option String := none
  priority : Option String := none
  assignee : Option String := none
  projectId : Option String := none
  dueDate : Option (Option Nat) := none
  status : Option String := none
  createdBy : Option String := none
  createdAt : Option Nat := none
  updatedAt : Option Nat := none
  comments : Option (List Comment) := none
deriving DecidableEq, Repr

/-- The spread `{...existingDefect, ...updates, updatedAt: now}`: every
supplied field overrides the stored one, then `updatedAt` is stamped. -/
def mergeDefect (d : Defect) (u : DefectUpdate) (now : Nat) : Defect :=
  { id := u.id.getD d.id
    title := u.title.getD d.title
    description := u.description.getD d.description
    priority := u.priority.getD d.priority
    assignee := u.assignee.getD d.assignee
    projectId := u.projectId.getD d.projectId
    dueDate := u.dueDate.getD d.dueDate
    status := u.status.getD d.status
    createdBy := u.createdBy.getD d.createdBy
    createdAt := u.createdAt.getD d.createdAt
    updatedAt := now
    comments := u.comments.getD d.comments }

/-- The field names `Object.keys(updates)` enumerates: the supplied keys of
the update payload, in the record's declaration order (a JSON object's own
key order is not observable here; the claims only use membership). -/
def updatedFieldNames (u : DefectUpdate) : List String :=
  (if u.id.isSome then ["id"] else []) ++
  (if u.title.isSome then ["title"] else []) ++
  (if u.description.isSome then ["description"] else []) ++
  (if u.priority.isSome then ["priority"] else []) ++
  (if u.assignee.isSome then ["assignee"] else []) ++
  (if u.projectId.isSome then ["projectId"] else []) ++
  (if u.dueDate.isSome then ["dueDate"] else []) ++
  (if u.status.isSome then ["status"] else []) ++
  (if u.createdBy.isSome then ["createdBy"] else []) ++
  (if u.createdAt.isSome then ["createdAt"] else []) ++
  (if u.updatedAt.isSome then ["updatedAt"] else []) ++
  (if u.comments.isSome then ["comments"] else [])

/-- The defect document the POST /defects handler builds: payload fields
verbatim, status Новая, both timestamps stamped, empty comment array. -/
def newDefect (uid : String) (p : CreateDefectPayload) (defectId : String)
    (now : Nat) : Defect :=
  { id := defectId
    title := p.title
    description := p.description
    priority := p.priority
    assignee := p.assignee
    projectId := p.projectId
    dueDate := p.dueDate
    status := "Новая"
    createdBy := uid
    createdAt := now
    updatedAt := now
    comments := [] }

/-- The history entry POST /defects writes. -/
def createdEntry (uid defectId entryId : String) (now : Nat) : HistoryEntry :=
  { id := entryId
    defectId := defectId
    action := "created"
    userId := uid
    timestamp := now
    details := "Дефект создан" }

/-- POST /defects: authenticate, build the defect with status Новая and an
empty comment list, store it, then write one `created` history entry. -/
def createDefect (st : Store) (auth : Option String) (p : CreateDefectPayload)
    (defectId entryId : String) (now : Nat) : HandlerResult Defect × Store :=
  match auth with
  | none => (.err 401 "Unauthorized", st)
  | some uid =>
      let defect := newDefect uid p defectId now
      (.ok defect,
        { st with
            defects := kvSet st.defects defectId defect
            histories := st.histories ++ [createdEntry uid defectId entryId now] })

/-- The history entry PUT /defects/:id writes: its details string joins the
payload's key names (`Object.keys(updates).join(', ')`). -/
def updatedEntry (uid defectId entryId : String) (now : Nat)
    (u : DefectUpdate) : HistoryEntry :=
  { id := entryId
    defectId := defectId
    action := "updated"
    userId := uid
    timestamp := now
    details := "Дефект обновлен: " ++ String.intercalate ", " (updatedFieldNames u) }

/-- PUT /defects/:id: authenticate, 404 when the key is absent, otherwise
shallow-merge the payload, re-stamp `updatedAt`, store the result, and write
one `updated` history entry whose details joins the payload's key names. -/
def updateDefect (st : Store) (auth : Option String) (defectId : String)
    (u : DefectUpdate) (entryId : String) (now : Nat) :
    HandlerResult Defect × Store :=
  match auth with
  | none => (.err 401 "Unauthorized", st)
  | some uid =>
      match st.defects.lookup defectId with
      | none => (.err 404 "Defect not found", st)
      | some existingDefect =>
          let updatedDefect := mergeDefect existingDefect u now
          (.ok updatedDefect,
            { st with
                defects := kvSet st.defects defectId updatedDefect
                histories := st.histories ++ [updatedEntry uid defectId entryId now u] })

/-- The comment object POST /defects/:id/comments builds:
`{id, author: user.id, comment, timestamp}`. -/
def madeComment (uid commentBody commentId : String) (now : Nat) : Comment :=
  { id := commentId
    author := uid
    comment := commentBody
    timestamp := now }

/-- POST /defects/:id/comments: authenticate, 404 when the key is absent,
otherwise push `{id, author: user.id, comment, timestamp}` onto the defect's
comment array and store the whole defect. No history entry is written. -/
def addComment (st : Store) (auth : Option String) (defectId : String)
    (commentBody : String) (commentId : String) (now : Nat) :
    HandlerResult Comment × Store :=
  match auth with
  | none => (.err 401 "Unauthorized", st)
  | some uid =>
      match st.defects.lookup defectId with
      | none => (.err 404 "Defect not found", st)
      | some defect =>
          let newComment := madeComment uid commentBody commentId now
          let updated := { defect with comments := defect.comments ++ [newComment] }
          (.ok newComment, { st with defects := kvSet st.defects defectId updated })

/-- Body of POST /signup. The API table documents a `role` field in the
request body; the handler destructures only email, password and name. -/
structure SignupPayload where
  email : String
  password : String
  name : String
  role : String
deriving DecidableEq, Repr

/-- The argument the signup handler passes to the authenticator's
`admin.createUser`: credentials plus `user_metadata: {name, role}`. -/
structure AuthCreateRequest where
  email : String
  password : String
  metaName : String
  metaRole : String
deriving DecidableEq, Repr

/-- The identity-creation request the signup handler issues: the metadata
role is the literal `observer`, not read from the payload. -/
def signupAuthRequest (p : SignupPayload) : AuthCreateRequest :=
  { email := p.email
    password := p.password
    metaName := p.name
    metaRole := "observer" }

/-- POST /signup: call `admin.createUser` (outcome modelled by
`createResult`: the fresh user id, or `none` for an authenticator error,
which the handler maps to 400); on success store the profile
`{id, email, name, role, createdAt}` with role `observer`. -/
def signup (st : Store) (p : SignupPayload) (createResult : Option String)
    (now : Nat) : HandlerResult String × Store :=
  match createResult with
  | none => (.err 400 "Signup error", st)
  | some uid =>
      let profile : User :=
        { id := uid
          email := p.email
          name := p.name
          role := "observer"
          createdAt := now
          updatedAt := none }
      (.ok uid, { st with users := kvSet st.users uid profile })

/-- The closed role enumeration the role-update handler validates against. -/
def validRoles : List String := ["observer", "engineer", "manager", "admin"]

/-- PUT /users/:id/role: authenticate; 403 unless the caller's stored
profile exists and has role admin; 400 unless the requested role is in
`validRoles`; 404 when the target profile is absent; otherwise store the
profile with the new role and an `updatedAt` stamp. (The second write, to
the authenticator's metadata, is outside the store model.) -/
def updateUserRole (st : Store) (auth : Option String) (userId roleArg : String)
    (now : Nat) : HandlerResult User × Store :=
  match auth with
  | none => (.err 401 "Unauthorized", st)
  | some adminId =>
      match st.users.lookup adminId with
      | none => (.err 403 "Forbidden: Admin access required", st)
      | some adminProfile =>
          if adminProfile.role ≠ "admin" then
            (.err 403 "Forbidden: Admin access required", st)
          else if ¬ (roleArg ∈ validRoles) then
            (.err 400 "Invalid role", st)
          else
            match st.users.lookup userId with
            | none => (.err 404 "User not found", st)
            | some userProfile =>
                let updatedProfile :=
                  { userProfile with role := roleArg, updatedAt := some now }
                (.ok updatedProfile,
                  { st with users := kvSet st.users userId updatedProfile })

/-- One step of `m[k] = (m[k] || 0) + 1` on a plain-object counter kept as
an association list in insertion order. -/
def bumpCount {α : Type} [DecidableEq α] (m : List (α × Nat)) (k : α) :
    List (α × Nat) :=
  match m with
  | [] => [(k, 1)]
  | (k', v) :: rest =>
      if k' = k then (k', v + 1) :: rest else (k', v) :: bumpCount rest k

/-- The overdue test of the analytics loop:
`defect.dueDate && new Date(defect.dueDate) < new Date() && defect.status !== 'Закрыта'`. -/
def overdueCheck (now : Nat) (d : Defect) : Bool :=
  match d.dueDate with
  | none => false
  | some due => decide (due < now) && decide (d.status ≠ "Закрыта")

/-- The four accumulators of the analytics scan. -/
structure AnalyticsResult where
  totalDefects : Nat
  overdue : Nat
  statusCount : List (String × Nat)
  priorityCount : List (String × Nat)
deriving DecidableEq, Repr

/-- One iteration of the analytics `for` loop over the defect list. -/
def analyticsStep (now : Nat) (acc : AnalyticsResult) (d : Defect) :
    AnalyticsResult :=
  { totalDefects := acc.totalDefects + 1
    overdue := if overdueCheck now d then acc.overdue + 1 else acc.overdue
    statusCount := bumpCount acc.statusCount d.status
    priorityCount := bumpCount acc.priorityCount d.priority }

/-- GET /analytics aggregation over the scanned defect collection, with the
request's wall-clock time passed in as `now`. -/
def analytics (defects : List Defect) (now : Nat) : AnalyticsResult :=
  defects.foldl (analyticsStep now) ⟨0, 0, [], []⟩

/-- The UTC calendar day of a timestamp, as
`new Date(t).toISOString().split('T')[0]` identifies it (timestamps are
minutes, a UTC day is 1440 of them). -/
def dayUTC (t : Nat) : Nat := t / 1440

/-- The client's `getTimelineData`: count defects per UTC day of
`createdAt` into a plain object, sort the entries by day (ISO date strings
compare lexicographically, i.e. by day number), and keep the last 30.
The final cosmetic relabelling to a locale date string is omitted: buckets
stay identified by their day number. -/
def getTimelineData (defects : List Defect) : List (Nat × Nat) :=
  let timeline := defects.foldl (fun m d => bumpCount m (dayUTC d.createdAt)) []
  let sorted := timeline.insertionSort (fun a b => a.1 ≤ b.1)
  sorted.drop (sorted.length - 30)

/-- The calendar day of a timestamp in the client-local time zone, for a
client whose `getTimezoneOffset()` is `tzOffset` minutes (UTC minus local,
so local time is `t - tzOffset`; e.g. Moscow has `tzOffset = -180`). -/
def dayLocal (tzOffset : Int) (t : Nat) : Int := ((t : Int) - tzOffset) / 1440

/-- Modelled from the spec: the bucketing the spec attributes to the client
(C8) — the same pipeline as `getTimelineData` but with each defect grouped
by the calendar day of `createdAt` in the client-local time zone. -/
def claimTimelineLocal (tzOffset : Int) (defects : List Defect) :
    List (Int × Nat) :=
  let timeline :=
    defects.foldl (fun m d => bumpCount m (dayLocal tzOffset d.createdAt)) []
  let sorted := timeline.insertionSort (fun a b => a.1 ≤ b.1)
  sorted.drop (sorted.length - 30)

/-- The UTC timeline re-expressed with `Int` day keys, so it can be compared
pointwise with the local-time bucketing of the claim. -/
def getTimelineDataZ (defects : List Defect) : List (Int × Nat) :=
  (getTimelineData defects).map (fun p => ((p.1 : Int), p.2))

/-! Helper definitions used only to state and analyse the theorems. -/

/-- Sum of the values of a counter object. -/
def sumVals {α : Type} (m : List (α × Nat)) : Nat :=
  (m.map Prod.snd).sum

/-- First value bound to a key in an association list (counter objects have
pairwise distinct keys, so this is the unique binding). -/
def valueAt {α : Type} [DecidableEq α] (m : List (α × Nat)) (k : α) :
    Option Nat :=
  match m with
  | [] => none
  | (k', v) :: rest => if k' = k then some v else valueAt rest k

instance : IsTotal (Nat × Nat) (fun a b => a.1 ≤ b.1) :=
  ⟨fun a b => Nat.le_total a.1 b.1⟩

instance : IsTrans (Nat × Nat) (fun a b => a.1 ≤ b.1) :=
  ⟨fun _ _ _ => Nat.le_trans⟩

/-- Reference description of the timeline's bucket keys: the distinct UTC
days on which some listed defect was created, ascending. -/
def distinctDaysSorted (defects : List Defect) : List Nat :=
  ((defects.map (fun d => dayUTC d.createdAt)).dedup).insertionSort (· ≤ ·)

/-! Concrete inputs for counterexamples and witnesses. -/

/-- A sample defect used by several concrete instantiations. -/
def sampleDefect : Defect :=
  { id := "d1"
    title := "Leak"
    description := "desc"
    priority := "Высокий"
    assignee := "u2"
    projectId := "p1"
    dueDate := some 3
    status := "Новая"
    createdBy := "u0"
    createdAt := 1380
    updatedAt := 0
    comments := [] }

/-- A store holding `sampleDefect` under `defect:d1` and nothing else. -/
def sampleStore : Store :=
  { users := [], defects := [("d1", sampleDefect)], histories := [] }

/-- An update payload that re-supplies the defect's current priority: its
value does not change anything, yet it is a key of the JSON object. -/
def resupplyPriority : DefectUpdate := { priority := some "Высокий" }

/-- A comment present on a defect before an update. -/
def earlierComment : Comment :=
  { id := "c0", author := "u2", comment := "first", timestamp := 2 }

/-- `sampleDefect` with one existing comment. -/
def commentedDefect : Defect :=
  { sampleDefect with comments := [earlierComment] }

/-- A store holding `commentedDefect` under `defect:d1`. -/
def commentedStore : Store :=
  { users := [], defects := [("d1", commentedDefect)], histories := [] }

/-- An update payload whose JSON object carries `comments: []`. -/
def wipeComments : DefectUpdate := { comments := some [] }

/-- An update payload that overwrites identity and bookkeeping fields and
supplies a status outside the data-model enumeration. -/
def overwritePayload : DefectUpdate :=
  { id := some "evil"
    status := some "Не статус"
    createdAt := some 99
    createdBy := some "someone"
    comments := some [] }

/-- The defect stored after adding the comment of the C4 witness run. -/
def appendedDefect : Defect :=
  { commentedDefect with
      comments := commentedDefect.comments ++ [madeComment "u1" "hello" "c1" 9] }

/-- A store with one observer and one admin profile. -/
def adminStore : Store :=
  { users :=
      [("u1", { id := "u1", email := "a@x", name := "A", role := "observer"
                createdAt := 0, updatedAt := none }),
       ("u9", { id := "u9", email := "r@x", name := "R", role := "admin"
                createdAt := 0, updatedAt := none })]
    defects := []
    histories := [] }

/-! Helper lemmas. -/

theorem sumVals_bumpCount {α : Type} [DecidableEq α] (m : List (α × Nat))
    (k : α) : sumVals (bumpCount m k) = sumVals m + 1 := by
  induction m with
  | nil => simp [bumpCount, sumVals]
  | cons p rest ih =>
      obtain ⟨k', v⟩ := p
      by_cases h : k' = k
      · simp [bumpCount, h, sumVals]
        omega
      · simp [bumpCount, h, sumVals] at ih ⊢
        omega

theorem analytics_loop (now : Nat) (ds : List Defect) :
    ∀ acc : AnalyticsResult,
      (ds.foldl (analyticsStep now) acc).totalDefects
          = acc.totalDefects + ds.length ∧
      (ds.foldl (analyticsStep now) acc).overdue
          = acc.overdue + ds.countP (fun d => overdueCheck now d) ∧
      sumVals (ds.foldl (analyticsStep now) acc).statusCount
          = sumVals acc.statusCount + ds.length ∧
      sumVals (ds.foldl (analyticsStep now) acc).priorityCount
          = sumVals acc.priorityCount + ds.length := by
  induction ds with
  | nil => intro acc; simp
  | cons d rest ih =>
      intro acc
      obtain ⟨h1, h2, h3, h4⟩ := ih (analyticsStep now acc d)
      refine ⟨?_, ?_, ?_, ?_⟩
      · rw [List.foldl_cons, h1]
        simp [analyticsStep]
        omega
      · rw [List.foldl_cons, h2]
        by_cases h : overdueCheck now d <;>
          simp [analyticsStep, List.countP_cons, h, Nat.add_assoc,
            Nat.add_comm, Nat.add_left_comm]
      · rw [List.foldl_cons, h3]
        simp [analyticsStep, sumVals_bumpCount]
        omega
      · rw [List.foldl_cons, h4]
        simp [analyticsStep, sumVals_bumpCount]
        omega

theorem lookup_cons_ne {α : Type} (rest : List (String × α)) (j k : String)
    (v : α) (h : j ≠ k) :
    List.lookup j ((k, v) :: rest) = List.lookup j rest := by
  have hb : (j == k) = false := beq_eq_false_iff_ne.mpr h
  simp [List.lookup, hb]

theorem lookup_kvSet {α : Type} (m : List (String × α)) (k : String) (v : α) :
    (kvSet m k v).lookup k = some v := by
  induction m with
  | nil => simp [kvSet]
  | cons p rest ih =>
      obtain ⟨k', v'⟩ := p
      by_cases h : k' = k
      · simp [kvSet, h]
      · simp [kvSet, h, ih, lookup_cons_ne _ _ _ _ (Ne.symm h)]

theorem lookup_kvSet_ne {α : Type} (m : List (String × α)) (k : String)
    (v : α) (j : String) (h : j ≠ k) :
    (kvSet m k v).lookup j = m.lookup j := by
  induction m with
  | nil => simp [kvSet, lookup_cons_ne _ _ _ _ h]
  | cons p rest ih =>
      obtain ⟨k', v'⟩ := p
      by_cases hk : k' = k
      · subst hk
        simp [kvSet, lookup_cons_ne _ _ _ _ h]
      · by_cases hj : k' = j
        · subst hj
          simp [kvSet, hk, List.lookup]
        · simp [kvSet, hk, ih, lookup_cons_ne _ _ _ _ (Ne.symm hj)]

/-- Claim C1: for every defect collection and request time, the analytics
overdue count equals the number of defects whose dueDate is set and strictly
earlier than now and whose status is not Закрыта (Closed); a defect failing
any of the three conditions is not counted. -/
theorem analytics_overdue_spec (ds : List Defect) (now : Nat) :
    (analytics ds now).overdue
        = (ds.filter (fun d => overdueCheck now d)).length ∧
    ∀ d : Defect, overdueCheck now d = true ↔
        ((∃ t, d.dueDate = some t ∧ t < now) ∧ d.status ≠ "Закрыта") := by
  constructor
  · have h := (analytics_loop now ds ⟨0, 0, [], []⟩).2.1
    simpa [analytics, List.countP_eq_length_filter] using h
  · intro d
    cases h : d.dueDate with
    | none => simp [overdueCheck, h]
    | some t => simp [overdueCheck, h]

/-- Claim C7: for every defect collection, the analytics statusCount values
sum to totalDefects, and so do the priorityCount values. -/
theorem analytics_counts_sum (ds : List Defect) (now : Nat) :
    sumVals (analytics ds now).statusCount = (analytics ds now).totalDefects ∧
    sumVals (analytics ds now).priorityCount = (analytics ds now).totalDefects := by
  obtain ⟨h1, -, h3, h4⟩ := analytics_loop now ds ⟨0, 0, [], []⟩
  constructor
  · rw [analytics, h3, h1]
    simp [sumVals]
  · rw [analytics, h4, h1]
    simp [sumVals]

/-- Claim C2: creating a defect writes exactly one history entry, with
action created, and stamps the defect with status Новая (New) and an empty
comment list; every update call on an existing defect writes exactly one
additional history entry, with action updated, whatever the payload. -/
theorem defect_history_one_entry :
    (∀ (st : Store) (uid : String) (p : CreateDefectPayload)
        (dId eId : String) (now : Nat),
      createDefect st (some uid) p dId eId now =
        (.ok (newDefect uid p dId now),
         { st with
             defects := kvSet st.defects dId (newDefect uid p dId now)
             histories := st.histories ++ [createdEntry uid dId eId now] }) ∧
      (createdEntry uid dId eId now).action = "created" ∧
      (newDefect uid p dId now).status = "Новая" ∧
      (newDefect uid p dId now).comments = []) ∧
    (∀ (st : Store) (uid dId : String) (u : DefectUpdate) (eId : String)
        (now : Nat) (d₀ : Defect),
      st.defects.lookup dId = some d₀ →
      updateDefect st (some uid) dId u eId now =
        (.ok (mergeDefect d₀ u now),
         { st with
             defects := kvSet st.defects dId (mergeDefect d₀ u now)
             histories := st.histories ++ [updatedEntry uid dId eId now u] }) ∧
      (updatedEntry uid dId eId now u).action = "updated") := by
  constructor
  · intro st uid p dId eId now
    exact ⟨rfl, rfl, rfl, rfl⟩
  · intro st uid dId u eId now d₀ h
    refine ⟨?_, rfl⟩
    simp [updateDefect, h]

/-- Witness for C2: a concrete update on a one-defect store. -/
theorem defect_history_one_entry_witness :
    updateDefect sampleStore (some "u1") "d1" resupplyPriority "h1" 7 =
      (.ok (mergeDefect sampleDefect resupplyPriority 7),
       { sampleStore with
           defects := kvSet sampleStore.defects "d1"
             (mergeDefect sampleDefect resupplyPriority 7)
           histories := sampleStore.histories ++
             [updatedEntry "u1" "d1" "h1" 7 resupplyPriority] }) ∧
    (updatedEntry "u1" "d1" "h1" 7 resupplyPriority).action = "updated" :=
  defect_history_one_entry.2 sampleStore "u1" "d1" resupplyPriority "h1" 7
    sampleDefect (by rfl)

/-- Claim C9: an add-comment call on an existing defect writes no history
entry and appends exactly one comment `{id, author: caller id, comment,
timestamp}` at the end of the stored sequence, preserving prior comments. -/
theorem addComment_spec (st : Store) (uid dId body cId : String) (now : Nat)
    (d₀ : Defect) (h : st.defects.lookup dId = some d₀) :
    addComment st (some uid) dId body cId now =
      (.ok (madeComment uid body cId now),
       { st with
           defects := kvSet st.defects dId
             ({ d₀ with comments := d₀.comments ++ [madeComment uid body cId now] }) }) ∧
    (addComment st (some uid) dId body cId now).2.histories = st.histories ∧
    ((addComment st (some uid) dId body cId now).2.defects.lookup dId)
        = some { d₀ with comments := d₀.comments ++ [madeComment uid body cId now] } ∧
    madeComment uid body cId now =
      { id := cId, author := uid, comment := body, timestamp := now } := by
  refine ⟨?_, ?_, ?_, rfl⟩ <;> simp [addComment, h, lookup_kvSet]

/-- Witness for C9: a concrete comment added to a one-defect store. -/
theorem addComment_spec_witness :
    addComment commentedStore (some "u1") "d1" "hello" "c1" 9 =
      (.ok (madeComment "u1" "hello" "c1" 9),
       { commentedStore with
           defects := kvSet commentedStore.defects "d1"
             ({ commentedDefect with
                 comments := commentedDefect.comments ++ [madeComment "u1" "hello" "c1" 9] }) }) ∧
    (addComment commentedStore (some "u1") "d1" "hello" "c1" 9).2.histories
        = commentedStore.histories ∧
    ((addComment commentedStore (some "u1") "d1" "hello" "c1" 9).2.defects.lookup "d1")
        = some { commentedDefect with
            comments := commentedDefect.comments ++ [madeComment "u1" "hello" "c1" 9] } ∧
    madeComment "u1" "hello" "c1" 9 =
      { id := "c1", author := "u1", comment := "hello", timestamp := 9 } :=
  addComment_spec commentedStore "u1" "d1" "hello" "c1" 9 commentedDefect (by rfl)

/-- Claim C5: with a valid token, a role-update request is answered 403
with the store untouched whenever the caller's profile is absent or not
admin, whatever the payload; and an admin caller requesting a role outside
the enumeration is answered 400 with no user record modified. -/
theorem updateUserRole_auth_spec :
    (∀ (st : Store) (caller target roleArg : String) (now : Nat),
       (st.users.lookup caller = none ∨
        ∃ prof, st.users.lookup caller = some prof ∧ prof.role ≠ "admin") →
       updateUserRole st (some caller) target roleArg now =
         (.err 403 "Forbidden: Admin access required", st)) ∧
    (∀ (st : Store) (caller target roleArg : String) (now : Nat) (prof : User),
       st.users.lookup caller = some prof → prof.role = "admin" →
       roleArg ∉ validRoles →
       updateUserRole st (some caller) target roleArg now =
         (.err 400 "Invalid role", st)) := by
  constructor
  · intro st caller target roleArg now h
    rcases h with h | ⟨prof, hl, hr⟩
    · simp [updateUserRole, h]
    · simp [updateUserRole, hl, hr]
  · intro st caller target roleArg now prof hl hr hv
    simp [updateUserRole, hl, hr, hv]

/-- Witness for C5: a non-admin caller gets 403 even for a valid payload;
an admin caller supplying an unknown role gets 400, store unchanged. -/
theorem updateUserRole_auth_spec_witness :
    updateUserRole adminStore (some "u1") "u1" "admin" 5 =
      (.err 403 "Forbidden: Admin access required", adminStore) ∧
    updateUserRole adminStore (some "u9") "u1" "hacker" 5 =
      (.err 400 "Invalid role", adminStore) :=
  ⟨updateUserRole_auth_spec.1 adminStore "u1" "u1" "admin" 5
      (Or.inr ⟨_, rfl, by decide⟩),
   updateUserRole_auth_spec.2 adminStore "u9" "u1" "hacker" 5 _ rfl rfl
      (by decide)⟩

/-- Claim C6: the identity-creation request and the stored profile of a
signup carry role observer, and two signup requests differing only in the
payload's role field behave identically. -/
theorem signup_role_independent (p₁ p₂ : SignupPayload)
    (he : p₁.email = p₂.email) (hp : p₁.password = p₂.password)
    (hn : p₁.name = p₂.name) :
    signupAuthRequest p₁ = signupAuthRequest p₂ ∧
    (signupAuthRequest p₁).metaRole = "observer" ∧
    (∀ (st : Store) (createResult : Option String) (now : Nat),
        signup st p₁ createResult now = signup st p₂ createResult now) ∧
    (∀ (st : Store) (uid : String) (now : Nat),
        ((signup st p₁ (some uid) now).2.users.lookup uid).map User.role
          = some "observer") := by
  refine ⟨?_, rfl, ?_, ?_⟩
  · simp [signupAuthRequest, he, hp, hn]
  · intro st cr now
    cases cr with
    | none => rfl
    | some uid => simp [signup, he, hn]
  · intro st uid now
    simp [signup, lookup_kvSet]

/-- Witness for C6: two concrete signups that differ only in the requested
role; the issued identity request coincides and the stored role is
observer. -/
theorem signup_role_independent_witness :
    signupAuthRequest ⟨"a@x", "pw", "A", "admin"⟩
        = signupAuthRequest ⟨"a@x", "pw", "A", "observer"⟩ ∧
    ((signup sampleStore ⟨"a@x", "pw", "A", "admin"⟩ (some "u7") 3).2.users.lookup
        "u7").map User.role = some "observer" :=
  ⟨(signup_role_independent ⟨"a@x", "pw", "A", "admin"⟩
      ⟨"a@x", "pw", "A", "observer"⟩ rfl rfl rfl).1,
   (signup_role_independent ⟨"a@x", "pw", "A", "admin"⟩
      ⟨"a@x", "pw", "A", "observer"⟩ rfl rfl rfl).2.2.2 sampleStore "u7" 3⟩

/-- Claim C10: the defect create and update handlers validate nothing: any
authenticated create succeeds and stores the payload verbatim (priority
included); any authenticated update of an existing defect succeeds and
stores the shallow merge, letting the payload overwrite id, createdAt,
createdBy, comments and put status outside the enumeration; update fails
only with 401 (no token) or 404 (absent defect). -/
theorem defect_handlers_no_validation :
    (∀ (st : Store) (uid : String) (p : CreateDefectPayload)
        (dId eId : String) (now : Nat),
        (createDefect st (some uid) p dId eId now).1
            = .ok (newDefect uid p dId now) ∧
        (newDefect uid p dId now).priority = p.priority ∧
        (newDefect uid p dId now).title = p.title ∧
        (newDefect uid p dId now).dueDate = p.dueDate) ∧
    (∀ (st : Store) (uid dId : String) (u : DefectUpdate) (eId : String)
        (now : Nat) (d₀ : Defect),
        st.defects.lookup dId = some d₀ →
        (updateDefect st (some uid) dId u eId now).1
            = .ok (mergeDefect d₀ u now) ∧
        ((updateDefect st (some uid) dId u eId now).2.defects.lookup dId)
            = some (mergeDefect d₀ u now) ∧
        (∀ x, u.status = some x → (mergeDefect d₀ u now).status = x) ∧
        (∀ x, u.id = some x → (mergeDefect d₀ u now).id = x) ∧
        (∀ x, u.createdAt = some x → (mergeDefect d₀ u now).createdAt = x) ∧
        (∀ x, u.createdBy = some x → (mergeDefect d₀ u now).createdBy = x) ∧
        (∀ x, u.comments = some x → (mergeDefect d₀ u now).comments = x)) ∧
    (∀ (st : Store) (dId : String) (u : DefectUpdate) (eId : String) (now : Nat),
        updateDefect st none dId u eId now = (.err 401 "Unauthorized", st)) ∧
    (∀ (st : Store) (uid dId : String) (u : DefectUpdate) (eId : String)
        (now : Nat),
        st.defects.lookup dId = none →
        updateDefect st (some uid) dId u eId now
            = (.err 404 "Defect not found", st)) := by
  refine ⟨?_, ?_, ?_, ?_⟩
  · intro st uid p dId eId now
    exact ⟨rfl, rfl, rfl, rfl⟩
  · intro st uid dId u eId now d₀ h
    refine ⟨?_, ?_, ?_, ?_, ?_, ?_, ?_⟩
    · simp [updateDefect, h]
    · simp [updateDefect, h, lookup_kvSet]
    · intro x hx; simp [mergeDefect, hx]
    · intro x hx; simp [mergeDefect, hx]
    · intro x hx; simp [mergeDefect, hx]
    · intro x hx; simp [mergeDefect, hx]
    · intro x hx; simp [mergeDefect, hx]
  · intro st dId u eId now
    rfl
  · intro st uid dId u eId now h
    simp [updateDefect, h]

/-- Witness for C10: a concrete update that rewrites id, createdAt,
createdBy and comments and stores a status outside the enumeration. -/
theorem defect_handlers_no_validation_witness :
    (updateDefect sampleStore (some "u1") "d1" overwritePayload "h1" 7).1
        = .ok (mergeDefect sampleDefect overwritePayload 7) ∧
    (mergeDefect sampleDefect overwritePayload 7).status = "Не статус" ∧
    (mergeDefect sampleDefect overwritePayload 7).id = "evil" ∧
    (mergeDefect sampleDefect overwritePayload 7).createdAt = 99 ∧
    (mergeDefect sampleDefect overwritePayload 7).createdBy = "someone" ∧
    (mergeDefect sampleDefect overwritePayload 7).comments = [] := by
  obtain ⟨h1, -, hs, hi, hca, hcb, hcm⟩ :=
    defect_handlers_no_validation.2.1 sampleStore "u1" "d1" overwritePayload
      "h1" 7 sampleDefect (by rfl)
  exact ⟨h1, hs _ rfl, hi _ rfl, hca _ rfl, hcb _ rfl, hcm _ rfl⟩

theorem mem_ite_singleton {s x : String} {c : Prop} [Decidable c] :
    (s ∈ if c then [x] else []) ↔ c ∧ s = x := by
  split <;> simp_all

/-- Counterexample to claim C3: an update that re-supplies the stored
priority value changes nothing, yet the written history entry's details
names priority — a field name appears in details without its value having
changed. -/
theorem update_details_counterexample :
    (updateDefect sampleStore (some "u1") "d1" resupplyPriority "h1" 7).2.histories
        = [{ id := "h1", defectId := "d1", action := "updated", userId := "u1",
             timestamp := 7, details := "Дефект обновлен: priority" }] ∧
    "priority" ∈ updatedFieldNames resupplyPriority ∧
    ((updateDefect sampleStore (some "u1") "d1" resupplyPriority "h1" 7).2.defects.lookup
        "d1") = some { sampleDefect with updatedAt := 7 } ∧
    ({ sampleDefect with updatedAt := 7 } : Defect).priority
        = sampleDefect.priority := by
  decide

/-- Claim C3 (amended): an update on an existing defect stores the shallow
merge of the supplied fields onto the record with updatedAt re-stamped, and
writes one history entry with action updated whose details lists the names
of the supplied fields of the payload — whether or not their values differ
from the stored ones. -/
theorem update_spec_amended (st : Store) (uid dId : String) (u : DefectUpdate)
    (eId : String) (now : Nat) (d₀ : Defect)
    (h : st.defects.lookup dId = some d₀) :
    updateDefect st (some uid) dId u eId now =
      (.ok (mergeDefect d₀ u now),
       { st with
           defects := kvSet st.defects dId (mergeDefect d₀ u now)
           histories := st.histories ++ [updatedEntry uid dId eId now u] }) ∧
    (mergeDefect d₀ u now).updatedAt = now ∧
    (updatedEntry uid dId eId now u).action = "updated" ∧
    (updatedEntry uid dId eId now u).details
        = "Дефект обновлен: " ++ String.intercalate ", " (updatedFieldNames u) ∧
    (("id" ∈ updatedFieldNames u) ↔ u.id.isSome = true) ∧
    (("title" ∈ updatedFieldNames u) ↔ u.title.isSome = true) ∧
    (("description" ∈ updatedFieldNames u) ↔ u.description.isSome = true) ∧
    (("priority" ∈ updatedFieldNames u) ↔ u.priority.isSome = true) ∧
    (("assignee" ∈ updatedFieldNames u) ↔ u.assignee.isSome = true) ∧
    (("projectId" ∈ updatedFieldNames u) ↔ u.projectId.isSome = true) ∧
    (("dueDate" ∈ updatedFieldNames u) ↔ u.dueDate.isSome = true) ∧
    (("status" ∈ updatedFieldNames u) ↔ u.status.isSome = true) ∧
    (("createdBy" ∈ updatedFieldNames u) ↔ u.createdBy.isSome = true) ∧
    (("createdAt" ∈ updatedFieldNames u) ↔ u.createdAt.isSome = true) ∧
    (("updatedAt" ∈ updatedFieldNames u) ↔ u.updatedAt.isSome = true) ∧
    (("comments" ∈ updatedFieldNames u) ↔ u.comments.isSome = true) := by
  refine ⟨?_, rfl, rfl, rfl, ?_, ?_, ?_, ?_, ?_, ?_, ?_, ?_, ?_, ?_, ?_, ?_⟩
  · simp [updateDefect, h]
  all_goals simp [updatedFieldNames, List.mem_append, mem_ite_singleton]

/-- Witness for the amended C3: the same concrete update as the
counterexample, with its details listing exactly the supplied field name. -/
theorem update_spec_amended_witness :
    updateDefect sampleStore (some "u1") "d1" resupplyPriority "h1" 7 =
      (.ok (mergeDefect sampleDefect resupplyPriority 7),
       { sampleStore with
           defects := kvSet sampleStore.defects "d1"
             (mergeDefect sampleDefect resupplyPriority 7)
           histories := sampleStore.histories ++
             [updatedEntry "u1" "d1" "h1" 7 resupplyPriority] }) ∧
    (mergeDefect sampleDefect resupplyPriority 7).updatedAt = 7 ∧
    (updatedEntry "u1" "d1" "h1" 7 resupplyPriority).action = "updated" ∧
    ("priority" ∈ updatedFieldNames resupplyPriority
        ↔ resupplyPriority.priority.isSome = true) :=
  have h := update_spec_amended sampleStore "u1" "d1" resupplyPriority "h1" 7
    sampleDefect (by rfl)
  ⟨h.1, h.2.1, h.2.2.1, h.2.2.2.2.2.2.2.1⟩

/-- Counterexample to claim C4: the update handler's shallow merge lets a
payload carrying a comments field replace the stored sequence, so the prior
sequence (one comment) is not a prefix of the sequence after the call
(empty). -/
theorem comments_not_append_only :
    (commentedStore.defects.lookup "d1").map Defect.comments
        = some [earlierComment] ∧
    ((updateDefect commentedStore (some "u1") "d1" wipeComments "h2" 9).2.defects.lookup
        "d1").map Defect.comments = some [] ∧
    ¬ (([] : List Comment).take [earlierComment].length = [earlierComment]) := by
  decide

/-- Claim C4 (amended): the stored comment sequences are append-only under
defect creation (with a fresh id), under add-comment, and under every update
whose payload does not supply a comments field: for each such operation and
every stored defect, the prior comment sequence is an initial segment of the
sequence after the call. -/
theorem comments_append_only_amended :
    (∀ (st : Store) (uid : String) (p : CreateDefectPayload)
        (dId eId : String) (now : Nat),
       st.defects.lookup dId = none →
       ∀ (k : String) (d d' : Defect), st.defects.lookup k = some d →
         ((createDefect st (some uid) p dId eId now).2.defects.lookup k) = some d' →
         d'.comments = d.comments ++ d'.comments.drop d.comments.length) ∧
    (∀ (st : Store) (uid dId : String) (u : DefectUpdate) (eId : String)
        (now : Nat),
       u.comments = none →
       ∀ (k : String) (d d' : Defect), st.defects.lookup k = some d →
         ((updateDefect st (some uid) dId u eId now).2.defects.lookup k) = some d' →
         d'.comments = d.comments ++ d'.comments.drop d.comments.length) ∧
    (∀ (st : Store) (uid dId body cId : String) (now : Nat),
       ∀ (k : String) (d d' : Defect), st.defects.lookup k = some d →
         ((addComment st (some uid) dId body cId now).2.defects.lookup k) = some d' →
         d'.comments = d.comments ++ d'.comments.drop d.comments.length) := by
  refine ⟨?_, ?_, ?_⟩
  · intro st uid p dId eId now hfresh k d d' hd hd'
    simp only [createDefect] at hd'
    by_cases hk : k = dId
    · subst hk
      rw [hfresh] at hd
      cases hd
    · rw [lookup_kvSet_ne _ _ _ _ hk] at hd'
      rw [hd] at hd'
      cases hd'
      simp [List.drop_length]
  · intro st uid dId u eId now hc k d d' hd hd'
    cases hl : st.defects.lookup dId with
    | none =>
        simp only [updateDefect, hl] at hd'
        rw [hd] at hd'
        cases hd'
        simp [List.drop_length]
    | some d₀ =>
        simp only [updateDefect, hl] at hd'
        by_cases hk : k = dId
        · subst hk
          rw [lookup_kvSet] at hd'
          cases hd'
          rw [hl] at hd
          cases hd
          simp [mergeDefect, hc, List.drop_length]
        · rw [lookup_kvSet_ne _ _ _ _ hk] at hd'
          rw [hd] at hd'
          cases hd'
          simp [List.drop_length]
  · intro st uid dId body cId now k d d' hd hd'
    cases hl : st.defects.lookup dId with
    | none =>
        simp only [addComment, hl] at hd'
        rw [hd] at hd'
        cases hd'
        simp [List.drop_length]
    | some d₀ =>
        simp only [addComment, hl] at hd'
        by_cases hk : k = dId
        · subst hk
          rw [lookup_kvSet] at hd'
          cases hd'
          rw [hl] at hd
          cases hd
          simp
        · rw [lookup_kvSet_ne _ _ _ _ hk] at hd'
          rw [hd] at hd'
          cases hd'
          simp [List.drop_length]

/-- Witness for the amended C4: adding a concrete comment leaves the prior
sequence as an initial segment of the stored one. -/
theorem comments_append_only_amended_witness :
    appendedDefect.comments = commentedDefect.comments ++
      appendedDefect.comments.drop commentedDefect.comments.length :=
  comments_append_only_amended.2.2 commentedStore "u1" "d1" "hello" "c1" 9
    "d1" commentedDefect appendedDefect (by rfl) (by decide)

theorem bumpCount_fst {α : Type} [DecidableEq α] (m : List (α × Nat)) (k : α) :
    (bumpCount m k).map Prod.fst =
      if k ∈ m.map Prod.fst then m.map Prod.fst
      else m.map Prod.fst ++ [k] := by
  induction m with
  | nil => simp [bumpCount]
  | cons p rest ih =>
      obtain ⟨k', v⟩ := p
      by_cases h : k' = k
      · subst h
        simp [bumpCount]
      · simp only [bumpCount, if_neg h, List.map_cons]
        by_cases hm : k ∈ rest.map Prod.fst
        · simp [ih, hm, Ne.symm h]
        · simp [ih, hm, Ne.symm h]

theorem bumpCount_nodup {α : Type} [DecidableEq α] (m : List (α × Nat)) (k : α)
    (h : (m.map Prod.fst).Nodup) : ((bumpCount m k).map Prod.fst).Nodup := by
  rw [bumpCount_fst]
  split
  · exact h
  · next hc =>
      refine List.Nodup.append h (List.nodup_singleton k) ?_
      intro a ha hb
      simp only [List.mem_singleton] at hb
      subst hb
      exact hc ha

theorem bumpCount_valueAt {α : Type} [DecidableEq α] (m : List (α × Nat))
    (k j : α) :
    valueAt (bumpCount m k) j =
      if j = k then some ((valueAt m j).getD 0 + 1) else valueAt m j := by
  induction m with
  | nil =>
      by_cases h : j = k
      · simp [bumpCount, valueAt, h]
      · simp [bumpCount, valueAt, h, Ne.symm h]
  | cons p rest ih =>
      obtain ⟨k', v⟩ := p
      by_cases h : k' = k
      · by_cases hj : k' = j
        · have hjk : j = k := by rw [← hj, h]
          simp [bumpCount, valueAt, h, hj, hjk]
        · have hjk : ¬ j = k := by
            rw [← h]
            exact fun hh => hj hh.symm
          have hkj : ¬ k = j := fun hh => hj (h.symm ▸ hh)
          simp [bumpCount, valueAt, h, hj, hjk, hkj]
      · by_cases hj : k' = j
        · have hjk : ¬ j = k := fun hh => h (hj.trans hh)
          simp [bumpCount, valueAt, h, hj, hjk]
        · simp [bumpCount, valueAt, h, hj, ih]

theorem foldl_bumpCount {α : Type} [DecidableEq α] (keys : List α) :
    ∀ (m : List (α × Nat)) (c : α → Nat),
      (m.map Prod.fst).Nodup →
      (∀ j, valueAt m j = if 0 < c j then some (c j) else none) →
      ((keys.foldl bumpCount m).map Prod.fst).Nodup ∧
      (∀ j, valueAt (keys.foldl bumpCount m) j =
        if 0 < c j + keys.count j then some (c j + keys.count j) else none) := by
  induction keys with
  | nil =>
      intro m c h1 h2
      refine ⟨h1, ?_⟩
      intro j
      simpa using h2 j
  | cons k keys ih =>
      intro m c h1 h2
      have h2' : ∀ j, valueAt (bumpCount m k) j =
          if 0 < c j + (if j = k then 1 else 0)
          then some (c j + (if j = k then 1 else 0)) else none := by
        intro j
        rw [bumpCount_valueAt]
        by_cases hj : j = k
        · rw [if_pos hj, if_pos hj, h2 j]
          rcases Nat.eq_zero_or_pos (c j) with h0 | hpos
          · simp [h0]
          · rw [if_pos hpos, if_pos (show 0 < c j + 1 by omega)]
            simp
        · simp [hj, h2 j]
      obtain ⟨g1, g2⟩ := ih (bumpCount m k) _ (bumpCount_nodup m k h1) h2'
      refine ⟨g1, ?_⟩
      intro j
      rw [List.foldl_cons, g2 j]
      have hAB : (c j + (if j = k then 1 else 0)) + keys.count j
          = c j + (k :: keys).count j := by
        rw [List.count_cons]
        by_cases hj : j = k
        · simp [hj]
          omega
        · have : ¬ k = j := fun hh => hj hh.symm
          simp [hj, this]
      rw [hAB]

theorem valueAt_isSome_iff {α : Type} [DecidableEq α] (m : List (α × Nat))
    (j : α) : (valueAt m j).isSome = true ↔ j ∈ m.map Prod.fst := by
  induction m with
  | nil => simp [valueAt]
  | cons p rest ih =>
      obtain ⟨k', v⟩ := p
      by_cases h : k' = j
      · simp [valueAt, h]
      · have h' : ¬ j = k' := fun hh => h hh.symm
        simp [valueAt, h, h', ih]

theorem valueAt_of_mem {α : Type} [DecidableEq α] (m : List (α × Nat))
    (h : (m.map Prod.fst).Nodup) (p : α × Nat) (hp : p ∈ m) :
    valueAt m p.1 = some p.2 := by
  induction m with
  | nil => cases hp
  | cons q rest ih =>
      obtain ⟨a, b⟩ := q
      rw [List.map_cons, List.nodup_cons] at h
      rcases List.mem_cons.mp hp with he | hm
      · subst he
        simp [valueAt]
      · have hne : ¬ a = p.1 := by
          intro hh
          apply h.1
          rw [hh]
          exact List.mem_map.mpr ⟨p, hm, rfl⟩
        simp [valueAt, hne, ih h.2 hm]

theorem pairs_eq_map_fst {α : Type} (l : List (α × Nat)) (g : α → Nat)
    (h : ∀ p ∈ l, p.2 = g p.1) :
    l = (l.map Prod.fst).map (fun k => (k, g k)) := by
  induction l with
  | nil => rfl
  | cons p rest ih =>
      simp only [List.map_cons]
      rw [← ih (fun q hq => h q (List.mem_cons_of_mem p hq))]
      have hp := h p (List.mem_cons_self p rest)
      obtain ⟨a, b⟩ := p
      simp only at hp
      simp [hp]

/-- Claim C8 (amended): the client's defect-creation time series groups
each defect by the UTC calendar day of its createdAt (the day named by
toISOString), keeps only the most recent 30 buckets, and orders them
chronologically, oldest first; each kept bucket carries the count of
defects created on that day. -/
theorem timeline_utc_spec (ds : List Defect) :
    getTimelineData ds =
      ((distinctDaysSorted ds).drop ((distinctDaysSorted ds).length - 30)).map
        (fun day => (day, ds.countP (fun d => decide (dayUTC d.createdAt = day)))) := by
  have hkeys :
      ds.foldl (fun m d => bumpCount m (dayUTC d.createdAt)) []
        = (ds.map (fun d => dayUTC d.createdAt)).foldl bumpCount [] :=
    (List.foldl_map (fun d => dayUTC d.createdAt) bumpCount ds []).symm
  obtain ⟨hnd, hval⟩ :=
    foldl_bumpCount (ds.map (fun d => dayUTC d.createdAt)) [] (fun _ => 0)
      (by simp) (by intro j; simp [valueAt])
  have hgt : getTimelineData ds
      = (((ds.map (fun d => dayUTC d.createdAt)).foldl bumpCount []).insertionSort
          (fun a b => a.1 ≤ b.1)).drop
        ((((ds.map (fun d => dayUTC d.createdAt)).foldl bumpCount []).insertionSort
          (fun a b => a.1 ≤ b.1)).length - 30) := by
    rw [getTimelineData, hkeys]
  set keys := ds.map (fun d => dayUTC d.createdAt) with hk
  set m := keys.foldl bumpCount ([] : List (Nat × Nat)) with hm
  set s := m.insertionSort (fun a b => a.1 ≤ b.1) with hs
  have hperm : s.Perm m := List.perm_insertionSort _ m
  have hsorted : List.Sorted (fun a b : Nat × Nat => a.1 ≤ b.1) s :=
    List.sorted_insertionSort _ m
  have hsnd : ∀ p ∈ s, p.2 = keys.count p.1 := by
    intro p hp
    have hpm : p ∈ m := hperm.subset hp
    have hv := valueAt_of_mem m hnd p hpm
    rw [hval p.1] at hv
    split at hv
    · simpa using hv.symm
    · cases hv
  have hfst_nodup : (s.map Prod.fst).Nodup := ((hperm.map Prod.fst).nodup_iff).mpr hnd
  have hfst_sorted : List.Sorted (· ≤ ·) (s.map Prod.fst) :=
    List.pairwise_map.mpr hsorted
  have hmem : ∀ j, j ∈ s.map Prod.fst ↔ j ∈ keys.dedup := by
    intro j
    rw [List.mem_dedup]
    constructor
    · intro hj
      have hj' : j ∈ m.map Prod.fst := (hperm.map Prod.fst).subset hj
      have hsome := (valueAt_isSome_iff m j).mpr hj'
      rw [hval j] at hsome
      split at hsome
      · next hc => exact List.count_pos_iff.mp (by simpa using hc)
      · simp at hsome
    · intro hj
      have hc : 0 < keys.count j := List.count_pos_iff.mpr hj
      have hsome : (valueAt m j).isSome = true := by
        rw [hval j, if_pos (by omega)]
        rfl
      exact (hperm.map Prod.fst).mem_iff.mpr ((valueAt_isSome_iff m j).mp hsome)
  have hd_perm : (distinctDaysSorted ds).Perm keys.dedup := by
    rw [distinctDaysSorted]
    exact List.perm_insertionSort _ _
  have hd_sorted : List.Sorted (· ≤ ·) (distinctDaysSorted ds) := by
    rw [distinctDaysSorted]
    exact List.sorted_insertionSort _ _
  have hd_nodup : (distinctDaysSorted ds).Nodup :=
    (hd_perm.nodup_iff).mpr (List.nodup_dedup _)
  have hpermkeys : (s.map Prod.fst).Perm (distinctDaysSorted ds) := by
    apply List.perm_of_nodup_nodup_toFinset_eq hfst_nodup hd_nodup
    ext a
    simp only [List.mem_toFinset]
    rw [hmem a, hd_perm.mem_iff]
  have hfst_eq : s.map Prod.fst = distinctDaysSorted ds :=
    List.eq_of_perm_of_sorted hpermkeys hfst_sorted hd_sorted
  have hs_eq : s = (distinctDaysSorted ds).map (fun k => (k, keys.count k)) := by
    rw [← hfst_eq]
    exact pairs_eq_map_fst s _ hsnd
  have hcount : ∀ k, keys.count k = ds.countP (fun d => decide (dayUTC d.createdAt = k)) := by
    intro k
    rw [hk]
    rw [show (ds.map (fun d => dayUTC d.createdAt)).count k
        = (ds.map (fun d => dayUTC d.createdAt)).countP (· == k) from rfl,
      List.countP_map]
    apply List.countP_congr
    intro d hd
    simp [Function.comp]
  rw [hgt, hs_eq, List.length_map, ← List.map_drop]
  apply List.map_congr_left
  intro a ha
  simp [hcount]

/-- Counterexample to claim C8: the bucketing day comes from toISOString,
i.e. UTC, not the client-local time zone. A defect created at 23:00 UTC
falls on UTC day 0, but on local day 1 for a Moscow client
(getTimezoneOffset = -180), so the computed series differs from the
locally-bucketed one the claim describes. -/
theorem timeline_not_local :
    getTimelineDataZ [sampleDefect] = [((0 : Int), 1)] ∧
    claimTimelineLocal (-180) [sampleDefect] = [((1 : Int), 1)] ∧
    getTimelineDataZ [sampleDefect] ≠ claimTimelineLocal (-180) [sampleDefect] := by
  decide

end TechFrame
